import Mathlib

/-!
Verification of the data-refresh coordinator of the crypto dashboard
(`src/hooks/useCoinDashboard.ts`) and its CoinGecko service layer
(`src/services/coingecko.ts`), shallowly embedded in Lean.

The embedding mirrors the TypeScript source: machine numbers that the
claims exercise are modelled as `Nat`/`Rat` (no floating point is needed
by any claim), fallible code returns `Except`, and the per-cycle state
writes of the React hook are modelled as an explicit ordered trace of
write events, split at the point where the cancellation signal aborts.
-/

namespace CryptoDash

/-- One row of the top-markets result (`src/types/api.ts`, `CoinMarket`). -/
structure CoinMarket where
  id : String
  symbol : String
  name : String
  image : String
  current_price : ℚ
  market_cap : ℚ
  market_cap_rank : ℕ
  total_volume : ℚ
  price_change_percentage_24h : Option ℚ
  deriving DecidableEq, Repr

/-- Response of `coins/{id}/market_chart` (`src/types/api.ts`,
`MarketChartResponse`): three parallel (timestamp, value) series. -/
structure MarketChartResponse where
  prices : List (ℕ × ℚ)
  market_caps : List (ℕ × ℚ)
  total_volumes : List (ℕ × ℚ)
  deriving DecidableEq, Repr

/-- Filter state of the dashboard (`src/types/api.ts`, `DashboardFilters`). -/
structure DashboardFilters where
  vsCurrency : String
  timeRange : ℕ
  selectedCoins : List String
  primaryCoin : String
  deriving DecidableEq, Repr

/-- `DEFAULT_FILTERS` of `useCoinDashboard.ts`. -/
def DEFAULT_FILTERS : DashboardFilters :=
  { vsCurrency := "usd", timeRange := 30, selectedCoins := [], primaryCoin := "" }

/-- The thrown JavaScript error values that the coordinator can observe.
`localRateLimit` is an instance of the `RateLimitError` class declared
inside `request` in `src/services/coingecko.ts` (lines 80-88);
`exportedRateLimit` is an instance of the module-level exported
`RateLimitError` class (lines 101-109).  They are distinct classes, so a
JavaScript `instanceof` test against the exported class distinguishes
them nominally.  `genericError` is a plain `Error`. -/
inductive JsError where
  | localRateLimit (message : String) (retryAfter : Option ℕ)
  | exportedRateLimit (message : String) (retryAfter : Option ℕ)
  | genericError (message : String)
  deriving DecidableEq, Repr

/-- `err.message`. -/
def JsError.message : JsError → String
  | .localRateLimit m _ => m
  | .exportedRateLimit m _ => m
  | .genericError m => m

/-- `err.name`: both rate-limit classes set `this.name = "RateLimitError"`. -/
def JsError.errName : JsError → String
  | .localRateLimit _ _ => "RateLimitError"
  | .exportedRateLimit _ _ => "RateLimitError"
  | .genericError _ => "Error"

/-- `err.status`: both rate-limit classes carry `status = 429`. -/
def JsError.statusOf : JsError → Option ℕ
  | .localRateLimit _ _ => some 429
  | .exportedRateLimit _ _ => some 429
  | .genericError _ => none

/-- `err.retryAfter`. -/
def JsError.retryAfterOf : JsError → Option ℕ
  | .localRateLimit _ r => r
  | .exportedRateLimit _ r => r
  | .genericError _ => none

/-- `err instanceof RateLimitError` where `RateLimitError` is the class the
hook imports, i.e. the module's exported class.  JavaScript `instanceof`
walks the prototype chain, so an instance of the class declared locally
inside `request` is not an instance of the exported class. -/
def instanceofRateLimitError : JsError → Bool
  | .exportedRateLimit _ _ => true
  | _ => false

/-- An HTTP response as `request` in `src/services/coingecko.ts` sees it:
status code, the `Retry-After` header if present, and the body text. -/
structure HttpResponse where
  status : ℕ
  retryAfterHeader : Option String
  body : String
  deriving DecidableEq, Repr

/-- `response.ok`: status in the 2xx range. -/
def HttpResponse.ok (r : HttpResponse) : Bool :=
  200 ≤ r.status && r.status ≤ 299

/-- Accumulate the value of a decimal digit string; any non-digit
character yields `none` (JavaScript `NaN`). -/
def digitsVal : List Char → ℕ → Option ℕ
  | [], acc => some acc
  | c :: cs, acc => if c.isDigit then digitsVal cs (acc * 10 + (c.toNat - 48)) else none

/-- `Number(s)` restricted to the shapes the claims exercise: the empty
string is 0, a nonnegative decimal integer string is its value, and any
other string is `NaN`, modelled as `none` (the hook's
`typeof === "number" && > 0` test rejects `NaN` exactly as it rejects a
missing value). -/
def jsNumberNat (s : String) : Option ℕ :=
  match s.data with
  | [] => some 0
  | l => digitsVal l 0

/-- The error/result behaviour of `request` (`src/services/coingecko.ts`,
lines 77-97) for a given HTTP response.  On 429 it throws an instance of
the locally declared `RateLimitError` class with message
"Rate limit exceeded" and `retryAfter = Number(Retry-After header)`
(modelled as decimal `Nat` parsing; the claims only exercise integer
headers).  On any other non-ok status it throws a plain `Error` with the
body text, or a status fallback when the body is empty.  On ok it
resolves with the parsed payload. -/
def request (resp : HttpResponse) (payload : α) : Except JsError α :=
  if resp.status = 429 then
    .error (.localRateLimit "Rate limit exceeded" (resp.retryAfterHeader.bind jsNumberNat))
  else if !resp.ok then
    .error (.genericError
      (if resp.body = "" then "CoinGecko request failed with status " ++ toString resp.status
       else resp.body))
  else
    .ok payload

/-- Contiguous-sublist test on lists, by scanning every suffix. -/
def listHasInfix (l pat : List Char) : Bool :=
  match l with
  | [] => pat.isEmpty
  | _ :: tl => pat.isPrefixOf l || listHasInfix tl pat

/-- `msg.includes(pat)`: substring test on the character lists. -/
def strContains (msg pat : String) : Bool :=
  listHasInfix msg.toList pat.toList

/-- Modelled from the spec: the i18n string table (`src/i18n/translations`,
imported by the i18n module but absent from the snapshot) supplies the
user-facing rate-limit message for key `rateLimitMessage`; per the spec
the message interpolates the retry-after seconds, so its text contains
the decimal rendering of `n`. -/
def rateLimitMessage (n : ℕ) : String :=
  "Rate limit reached. Retry in " ++ toString n ++ " seconds."

/-- Modelled from the spec: the i18n string for key `rateLimitRetryLater`,
a rate-limit message without a concrete retry duration. -/
def rateLimitRetryLater : String :=
  "Rate limit reached. Please retry later."

/-- The `catch` classification shared by `loadMarketOverview` (lines
105-121) and `loadChart` (lines 141-156) of `useCoinDashboard.ts`,
parameterised on the kind-specific empty-message fallback.  If the error
is an `instanceof` the imported `RateLimitError` class, format a
rate-limit message (with the rounded `retryAfter` when it is a positive
number); otherwise match the message against the connectivity patterns,
and fall back to the message itself or the generic fallback. -/
def classifyFetchError (fallback : String) (err : JsError) : String :=
  if instanceofRateLimitError err then
    match err.retryAfterOf with
    | some n => if 0 < n then rateLimitMessage n else rateLimitRetryLater
    | none => rateLimitRetryLater
  else
    let msg := err.message
    if strContains msg "Failed to fetch" || strContains msg "NetworkError" then
      "No se pudo conectar con CoinGecko. Revisa tu conexión o intenta de nuevo."
    else if msg = "" then fallback else msg

/-- `areArraysEqual` from `src/utils/array.ts` (its source appears in the
snapshot appended after `src/src/utils/format.test.ts`): `false` when
the two arrays differ in length, otherwise
`a.every((item, index) => item === b[index])` — under equal lengths,
the element-wise comparison of the zipped lists. -/
def areArraysEqual (a b : List String) : Bool :=
  if a.length != b.length then false
  else (a.zip b).all (fun p => p.1 == p.2)

/-- `areArraysEqual` decides equality of the two string lists. -/
theorem areArraysEqual_eq_true_iff : ∀ a b : List String,
    areArraysEqual a b = true ↔ a = b := by
  intro a
  induction a with
  | nil =>
    intro b
    cases b with
    | nil => simp [areArraysEqual]
    | cons y ys => simp [areArraysEqual]
  | cons x xs ih =>
    intro b
    cases b with
    | nil => simp [areArraysEqual]
    | cons y ys =>
      by_cases hl : xs.length = ys.length
      · have hstep : areArraysEqual (x :: xs) (y :: ys) =
            ((x == y) && areArraysEqual xs ys) := by
          simp [areArraysEqual, hl]
        rw [hstep]
        simp [ih ys]
      · simp [areArraysEqual, hl]
        intro _ hxy
        exact hl (congrArg List.length hxy)

/-- `filters.selectedCoins.filter((coinId) => data.some((coin) => coin.id
=== coinId))` — `useCoinDashboard.ts` line 84. -/
def reconcileSelected (flt : DashboardFilters) (data : List CoinMarket) : List String :=
  flt.selectedCoins.filter (fun coinId => data.any (fun coin => coin.id == coinId))

/-- `filtered.includes(filters.primaryCoin) ? filters.primaryCoin :
filtered[0] ?? ""` — `useCoinDashboard.ts` line 87. -/
def reconcilePrimary (filtered : List String) (primaryCoin : String) : String :=
  if filtered.contains primaryCoin then primaryCoin else filtered.headD ""

/-- `fallbackSelected.map((coinId) => data.find((coin) => coin.id ===
coinId)).filter(Boolean)` — `useCoinDashboard.ts` lines 97-101. -/
def selectedMarketsProjection (sel : List String) (data : List CoinMarket) : List CoinMarket :=
  (sel.map (fun coinId => data.find? (fun coin => coin.id == coinId))).filterMap (fun oc => oc)

/-- The React state owned by `useCoinDashboard` that the fetch cycles
write (`useCoinDashboard.ts` lines 49-56); `lastUpdated` is a timestamp. -/
structure DashState where
  filters : DashboardFilters
  availableCoins : List CoinMarket
  selectedCoinMarkets : List CoinMarket
  chartData : Option MarketChartResponse
  loadingMarkets : Bool
  loadingChart : Bool
  error : Option String
  lastUpdated : Option ℕ
  deriving DecidableEq, Repr

/-- One state write performed by a fetch cycle, tagged by the React state
setter it goes through. -/
inductive WriteTag where
  | wLoadingMarkets (b : Bool)
  | wAvailableCoins (l : List CoinMarket)
  | wFilters (selectedCoins : List String) (primaryCoin : String)
  | wSelectedCoinMarkets (l : List CoinMarket)
  | wError (e : Option String)
  | wLastUpdated (now : ℕ)
  | wChartData (c : MarketChartResponse)
  | wLoadingChart (b : Bool)
  deriving DecidableEq, Repr

/-- Apply one write to the hook state.  `wFilters` is the combined
functional update of line 90-94 (`{...prev, selectedCoins, primaryCoin}`). -/
def applyWrite (st : DashState) : WriteTag → DashState
  | .wLoadingMarkets b => { st with loadingMarkets := b }
  | .wAvailableCoins l => { st with availableCoins := l }
  | .wFilters sel prim =>
      { st with filters := { st.filters with selectedCoins := sel, primaryCoin := prim } }
  | .wSelectedCoinMarkets l => { st with selectedCoinMarkets := l }
  | .wError e => { st with error := e }
  | .wLastUpdated now => { st with lastUpdated := some now }
  | .wChartData c => { st with chartData := some c }
  | .wLoadingChart b => { st with loadingChart := b }

/-- When, relative to a fetch cycle, its cancellation signal is aborted:
before the cycle is invoked, during the awaited network call, or never.
The event loop is single-threaded, so these are the only abort points a
cycle can observe (the synchronous block after the post-await abort
check cannot be interleaved with an abort). -/
inductive AbortPoint where
  | beforeStart
  | duringAwait
  | never
  deriving DecidableEq, Repr

/-- The ordered state writes of one `loadMarketOverview` cycle
(`useCoinDashboard.ts` lines 75-127), split as (writes that happen
before the signal aborts, writes that happen after it aborts).
`setLoadingMarkets(true)` runs unconditionally before the `try` block.
If the signal is already aborted, `fetch` rejects at once, the `catch`
sees `signal.aborted` and returns, and the `finally` skips the loading
reset — so the only write is the initial loading write, after the abort.
If the signal aborts during the await, the post-await/`catch`/`finally`
abort checks suppress every further write.  Otherwise the cycle runs the
success path (lines 82-103) or the error-classification path. -/
def marketTrace (flt : DashboardFilters) (res : Except JsError (List CoinMarket))
    (ap : AbortPoint) (now : ℕ) : List WriteTag × List WriteTag :=
  match ap with
  | .beforeStart => ([], [.wLoadingMarkets true])
  | .duringAwait => ([.wLoadingMarkets true], [])
  | .never =>
    match res with
    | .ok data =>
      let fallbackSelected := reconcileSelected flt data
      let nextPrimary := reconcilePrimary fallbackSelected flt.primaryCoin
      let filterWrites :=
        if (!areArraysEqual fallbackSelected flt.selectedCoins
            || nextPrimary != flt.primaryCoin) then
          [WriteTag.wFilters fallbackSelected nextPrimary]
        else []
      ([WriteTag.wLoadingMarkets true, WriteTag.wAvailableCoins data] ++ filterWrites ++
        [WriteTag.wSelectedCoinMarkets (selectedMarketsProjection fallbackSelected data),
         WriteTag.wError none, WriteTag.wLastUpdated now, WriteTag.wLoadingMarkets false], [])
    | .error e =>
      ([WriteTag.wLoadingMarkets true,
        WriteTag.wError (some (classifyFetchError "Unexpected error while loading market data." e)),
        WriteTag.wLoadingMarkets false], [])

/-- The ordered state writes of one `loadChart` cycle
(`useCoinDashboard.ts` lines 131-164), split at the abort point exactly
as in `marketTrace`. -/
def chartTrace (res : Except JsError MarketChartResponse)
    (ap : AbortPoint) (now : ℕ) : List WriteTag × List WriteTag :=
  match ap with
  | .beforeStart => ([], [.wLoadingChart true])
  | .duringAwait => ([.wLoadingChart true], [])
  | .never =>
    match res with
    | .ok data =>
      ([WriteTag.wLoadingChart true, WriteTag.wChartData data,
        WriteTag.wError none, WriteTag.wLastUpdated now, WriteTag.wLoadingChart false], [])
    | .error e =>
      ([WriteTag.wLoadingChart true,
        WriteTag.wError (some (classifyFetchError "Unexpected error while loading chart data." e)),
        WriteTag.wLoadingChart false], [])

/-- Final hook state after one `loadMarketOverview` cycle: all its writes
(before and after the abort point) folded over the starting state. -/
def runMarketCycle (st : DashState) (res : Except JsError (List CoinMarket))
    (ap : AbortPoint) (now : ℕ) : DashState :=
  ((marketTrace st.filters res ap now).1 ++ (marketTrace st.filters res ap now).2).foldl
    applyWrite st

/-- Final hook state after one `loadChart` cycle. -/
def runChartCycle (st : DashState) (res : Except JsError MarketChartResponse)
    (ap : AbortPoint) (now : ℕ) : DashState :=
  ((chartTrace res ap now).1 ++ (chartTrace res ap now).2).foldl applyWrite st

/-- Whether the async function `loadMarketOverview` resolves or rejects,
as a function of its underlying fetch outcome and abort point.  Every
branch of the source resolves: an abort (before or during the await)
exits through an early `return`, a successful fetch completes the `try`
body, and a failed fetch is consumed by the `catch` block, which only
classifies the error and writes it to state (lines 104-121).  The
function never rethrows past its own boundary. -/
def marketCycleOutcome (res : Except JsError (List CoinMarket))
    (ap : AbortPoint) : Except JsError Unit :=
  match ap with
  | .beforeStart => .ok ()
  | .duringAwait => .ok ()
  | .never =>
    match res with
    | .ok _ => .ok ()
    | .error _ => .ok ()

/-- Whether `loadChart` resolves or rejects; like `marketCycleOutcome`,
every branch of the source (lines 131-164) resolves. -/
def chartCycleOutcome (res : Except JsError MarketChartResponse)
    (ap : AbortPoint) : Except JsError Unit :=
  match ap with
  | .beforeStart => .ok ()
  | .duringAwait => .ok ()
  | .never =>
    match res with
    | .ok _ => .ok ()
    | .error _ => .ok ()

/-- The consecutive-failure counter after one polling `attemptFetch`
(`useCoinDashboard.ts` lines 210-229): `Promise.all` over the two loader
promises resolves exactly when both resolve, in which case the counter
resets to 0; if it rejected, the `catch` would set the counter to
`min(count + 1, 6)`. -/
def attemptFetchNewCount (failureCount : ℕ)
    (mres : Except JsError (List CoinMarket))
    (cres : Except JsError MarketChartResponse) : ℕ :=
  match marketCycleOutcome mres .never, chartCycleOutcome cres .never with
  | .ok _, .ok _ => 0
  | _, _ => min (failureCount + 1) 6

/-- `Math.round(x)`: floor of `x + 1/2` (JavaScript rounds half toward
positive infinity). -/
def jsRound (x : ℚ) : ℤ := ⌊x + 1/2⌋

/-- The non-jittered component of the delay computed by `scheduleNext`
(`useCoinDashboard.ts` lines 193-201): `AUTO_REFRESH_MS` times the
backoff multiplier `min(2^failures, 8)`, floored at `6 * AUTO_REFRESH_MS`
when the page is hidden. -/
def scheduleDelayPre (base : ℚ) (failureCount : ℕ) (hidden : Bool) : ℚ :=
  let multiplier : ℚ := min ((2 : ℚ) ^ failureCount) 8
  let next := base * multiplier
  if hidden then max next (base * 6) else next

/-- The full delay computed by `scheduleNext` (lines 193-207): the
non-jittered component, plus `Math.round(next * (random * 0.2 - 0.1))`
jitter for a random draw `q ∈ [0, 1)`, floored at 1000 ms. -/
def scheduleDelay (base : ℚ) (failureCount : ℕ) (hidden : Bool) (q : ℚ) : ℚ :=
  let next := scheduleDelayPre base failureCount hidden
  let jitter : ℤ := jsRound (next * (q * (2 / 10) - 1 / 10))
  max 1000 (next + (jitter : ℚ))

/-- The environment of one firing of the polling loop: whether a fetch is
already in flight, whether the page is hidden, the outcomes of the two
underlying network fetches should an attempt run, and the jitter draw
used by the following `scheduleNext`. -/
structure PollTick where
  busy : Bool
  hidden : Bool
  mFetch : Except JsError (List CoinMarket)
  cFetch : Except JsError MarketChartResponse
  q : ℚ

/-- Observable actions of the polling loop: an actual combined fetch
attempt, or the creation of a timer with the given delay. -/
inductive PollEvent where
  | fetchAttempt
  | timerScheduled (delay : ℚ)
  deriving DecidableEq, Repr

/-- One firing of `attemptFetch` (lines 210-229): when a fetch is already
in flight, or the page is hidden, reschedule without fetching and
without touching the failure counter; otherwise run the combined fetch,
update the counter, and schedule the next firing with the updated
counter. -/
def pollStep (base : ℚ) (failureCount : ℕ) (tick : PollTick) : ℕ × List PollEvent :=
  if tick.busy then
    (failureCount, [.timerScheduled (scheduleDelay base failureCount tick.hidden tick.q)])
  else if tick.hidden then
    (failureCount, [.timerScheduled (scheduleDelay base failureCount tick.hidden tick.q)])
  else
    let fc := attemptFetchNewCount failureCount tick.mFetch tick.cFetch
    (fc, [.fetchAttempt, .timerScheduled (scheduleDelay base fc tick.hidden tick.q)])

/-- Run the polling loop over a finite script of firings, threading the
failure counter; teardown (`cancelled = true`) simply truncates the
script. -/
def pollRun (base : ℚ) (failureCount : ℕ) : List PollTick → List PollEvent
  | [] => []
  | tick :: ticks =>
    let (fc, evs) := pollStep base failureCount tick
    evs ++ pollRun base fc ticks

/-- The polling effect (`useCoinDashboard.ts` lines 185-238): with
`!AUTO_REFRESH_MS || AUTO_REFRESH_MS <= 0` it returns before installing
anything (no timers, no attempts); otherwise it starts the loop with
failure counter 0 and an immediate first firing. -/
def pollingEffect (autoRefreshMs : ℚ) (ticks : List PollTick) : List PollEvent :=
  if autoRefreshMs = 0 ∨ autoRefreshMs ≤ 0 then [] else pollRun autoRefreshMs 0 ticks

/-- `Number((import.meta.env.VITE_AUTO_REFRESH_MS) ?? 0) || 0` (line 60):
an unset variable yields 0 (polling disabled); a set variable yields its
numeric value (the model keeps already-numeric environments). -/
def autoRefreshFromEnv (env : Option ℚ) : ℚ :=
  env.getD 0

/-- A network request the coordinator can issue, with the parameters the
service layer receives (`getTopMarkets` / `getMarketChart`). -/
inductive ApiRequest where
  | marketsReq (vsCurrency : String) (perPage : ℕ)
  | chartReq (coinId : String) (vsCurrency : String) (days : ℕ)
  deriving DecidableEq, Repr

/-- The snapshot request issued by `loadMarketOverview` (line 79):
`getTopMarkets(filters.vsCurrency, 50, signal)`. -/
def loadMarketOverviewRequest (flt : DashboardFilters) : ApiRequest :=
  .marketsReq flt.vsCurrency 50

/-- The series request issued by `loadChart` (line 135):
`getMarketChart(filters.primaryCoin, filters.vsCurrency,
filters.timeRange, signal)` — issued unconditionally, with no empty-id
guard inside `loadChart` or `getMarketChart`. -/
def loadChartRequest (flt : DashboardFilters) : ApiRequest :=
  .chartReq flt.primaryCoin flt.vsCurrency flt.timeRange

/-- Requests issued by the filter-change chart effect (lines 174-181): it
returns before creating a controller when `filters.primaryCoin` is
empty, otherwise it invokes `loadChart`. -/
def chartEffectRequests (flt : DashboardFilters) : List ApiRequest :=
  if flt.primaryCoin = "" then [] else [loadChartRequest flt]

/-- Requests issued by `refreshData` (lines 240-244): it invokes both
loaders unconditionally. -/
def refreshDataRequests (flt : DashboardFilters) : List ApiRequest :=
  [loadMarketOverviewRequest flt, loadChartRequest flt]

/-- Requests issued by one polling `attemptFetch` firing (lines 210-218):
nothing when cancelled, already fetching, or hidden; otherwise both
loaders, unconditionally. -/
def pollAttemptRequests (flt : DashboardFilters)
    (cancelled busy hidden : Bool) : List ApiRequest :=
  if cancelled then []
  else if busy then []
  else if hidden then []
  else [loadMarketOverviewRequest flt, loadChartRequest flt]

/-- A coin row with the given id and inert market numbers, for concrete
scenarios. -/
def mkCoin (id : String) : CoinMarket :=
  { id := id, symbol := id, name := id, image := "", current_price := 0,
    market_cap := 0, market_cap_rank := 0, total_volume := 0,
    price_change_percentage_24h := none }

/-- The snapshot of the spec scenario: only "bitcoin" and "cardano". -/
def sampleSnapshot : List CoinMarket :=
  [mkCoin "bitcoin", mkCoin "cardano"]

/-- Hook state of the spec scenario: selection
["bitcoin", "ethereum", "solana"], primary "ethereum". -/
def sampleState : DashState :=
  { filters := { vsCurrency := "usd", timeRange := 30,
                 selectedCoins := ["bitcoin", "ethereum", "solana"],
                 primaryCoin := "ethereum" },
    availableCoins := [], selectedCoinMarkets := [], chartData := none,
    loadingMarkets := false, loadingChart := false, error := none,
    lastUpdated := none }

/-- Closed-form final state of a successful, uncancelled
`loadMarketOverview` cycle: the snapshot replaces `availableCoins`, the
filters hold the reconciled selection and primary (whether or not the
conditional combined update fires), the projection is recomputed, the
error is cleared, the timestamp is stamped, and loading is reset. -/
theorem runMarketCycle_ok (st : DashState) (data : List CoinMarket) (now : ℕ) :
    runMarketCycle st (.ok data) .never now =
      { st with
        filters := { st.filters with
          selectedCoins := reconcileSelected st.filters data,
          primaryCoin :=
            reconcilePrimary (reconcileSelected st.filters data) st.filters.primaryCoin },
        availableCoins := data,
        selectedCoinMarkets :=
          selectedMarketsProjection (reconcileSelected st.filters data) data,
        error := none,
        lastUpdated := some now,
        loadingMarkets := false } := by
  unfold runMarketCycle marketTrace
  by_cases h : (!areArraysEqual (reconcileSelected st.filters data) st.filters.selectedCoins
      || reconcilePrimary (reconcileSelected st.filters data) st.filters.primaryCoin
          != st.filters.primaryCoin) = true
  · simp only [h, if_true]
    rfl
  · have h2 : reconcileSelected st.filters data = st.filters.selectedCoins ∧
        reconcilePrimary (reconcileSelected st.filters data) st.filters.primaryCoin =
          st.filters.primaryCoin := by
      simpa [areArraysEqual_eq_true_iff, Bool.or_eq_true, bne_iff_ne, not_or] using h
    simp only [h, if_false]
    rw [show ({ st.filters with
          selectedCoins := reconcileSelected st.filters data,
          primaryCoin :=
            reconcilePrimary (reconcileSelected st.filters data) st.filters.primaryCoin } :
        DashboardFilters) = st.filters by
      rw [h2.2, h2.1]]
    rfl

/-- The reconciled primary is the empty string or a member of the
filtered selection. -/
theorem reconcilePrimary_empty_or_mem (filtered : List String) (p : String) :
    reconcilePrimary filtered p = "" ∨ reconcilePrimary filtered p ∈ filtered := by
  unfold reconcilePrimary
  by_cases h : filtered.contains p = true
  · right
    simp only [h, if_true]
    exact List.mem_of_elem_eq_true h
  · cases filtered with
    | nil => left; rw [if_neg h]; rfl
    | cons x xs => right; rw [if_neg h]; simp

/-- Every id kept by the reconciliation filter occurs in the snapshot. -/
theorem reconcileSelected_mem_any (flt : DashboardFilters) (data : List CoinMarket) :
    ∀ id ∈ reconcileSelected flt data, data.any (fun coin => coin.id == id) = true := by
  intro id hid
  exact (List.mem_filter.mp hid).2

/-- Head-step evaluation of the selected-markets projection. -/
theorem selectedMarketsProjection_cons (x : String) (xs : List String)
    (data : List CoinMarket) :
    selectedMarketsProjection (x :: xs) data =
      match data.find? (fun coin => coin.id == x) with
      | some c => c :: selectedMarketsProjection xs data
      | none => selectedMarketsProjection xs data := by
  cases hf : data.find? (fun coin => coin.id == x) <;>
    simp [selectedMarketsProjection, List.filterMap_cons, hf]

/-- When every selected id occurs in the snapshot, the projection hits
every id: its image under `id` is the selection itself. -/
theorem selectedMarketsProjection_map_id (data : List CoinMarket) :
    ∀ sel : List String, (∀ id ∈ sel, data.any (fun coin => coin.id == id) = true) →
      (selectedMarketsProjection sel data).map (fun c => c.id) = sel := by
  intro sel
  induction sel with
  | nil => intro _; rfl
  | cons x xs ih =>
    intro h
    have hx : data.any (fun coin => coin.id == x) = true := h x (List.mem_cons_self x xs)
    obtain ⟨c, hcmem, hcp⟩ := List.any_eq_true.mp hx
    obtain ⟨c2, hc2⟩ : ∃ c2, data.find? (fun coin => coin.id == x) = some c2 := by
      refine Option.isSome_iff_exists.mp ?_
      exact List.find?_isSome.mpr ⟨c, hcmem, hcp⟩
    have hc2id : c2.id = x := by
      have := List.find?_some hc2
      simpa using this
    rw [selectedMarketsProjection_cons, hc2]
    simp only [List.map_cons, hc2id]
    rw [ih (fun id hid => h id (List.mem_cons_of_mem _ hid))]

/-- Every projected market row is a row of the snapshot. -/
theorem selectedMarketsProjection_mem_data (sel : List String) (data : List CoinMarket) :
    ∀ m ∈ selectedMarketsProjection sel data, m ∈ data := by
  intro m hm
  rcases List.mem_filterMap.mp hm with ⟨oc, hocmem, hoc⟩
  rcases List.mem_map.mp hocmem with ⟨a, _, hfa⟩
  refine List.mem_of_find?_eq_some (p := fun coin => coin.id == a) ?_
  rw [hfa]
  exact hoc

/-- C1: after every successful, uncancelled snapshot fetch, the
reconciled selection is exactly the previous `selectedCoins` filtered to
the ids present in the new snapshot — an order-preserving subsequence of
the input selection whose every id occurs in the snapshot — and on the
spec scenario (selection ["bitcoin", "ethereum", "solana"], snapshot
containing only "bitcoin" and "cardano") it is ["bitcoin"]. -/
theorem snapshot_reconciles_selection_to_filtered_subsequence :
    (∀ (st : DashState) (data : List CoinMarket) (now : ℕ),
      (runMarketCycle st (.ok data) .never now).filters.selectedCoins =
          reconcileSelected st.filters data ∧
      ((runMarketCycle st (.ok data) .never now).filters.selectedCoins).Sublist
          st.filters.selectedCoins ∧
      ∀ id ∈ (runMarketCycle st (.ok data) .never now).filters.selectedCoins,
        data.any (fun coin => coin.id == id) = true) ∧
    (runMarketCycle sampleState (.ok sampleSnapshot) .never 0).filters.selectedCoins =
      ["bitcoin"] := by
  constructor
  · intro st data now
    rw [runMarketCycle_ok]
    refine ⟨rfl, ?_, ?_⟩
    · show (reconcileSelected st.filters data).Sublist st.filters.selectedCoins
      exact List.filter_sublist _
    · show ∀ id ∈ reconcileSelected st.filters data, _
      exact reconcileSelected_mem_any st.filters data
  · decide

/-- C2: after every successful, uncancelled snapshot fetch, the new
primary is the old primary when it survived the filtering, else the
first id of the filtered selection, else the empty string; consequently
it is empty or a member of the reconciled selection.  On the spec
scenario the prior primary "ethereum" is replaced by "bitcoin". -/
theorem snapshot_reconciles_primary_to_valid_choice :
    (∀ (st : DashState) (data : List CoinMarket) (now : ℕ),
      (runMarketCycle st (.ok data) .never now).filters.primaryCoin =
          reconcilePrimary (reconcileSelected st.filters data) st.filters.primaryCoin ∧
      ((runMarketCycle st (.ok data) .never now).filters.primaryCoin = "" ∨
        (runMarketCycle st (.ok data) .never now).filters.primaryCoin ∈
          (runMarketCycle st (.ok data) .never now).filters.selectedCoins)) ∧
    (runMarketCycle sampleState (.ok sampleSnapshot) .never 0).filters.primaryCoin =
      "bitcoin" := by
  constructor
  · intro st data now
    rw [runMarketCycle_ok]
    exact ⟨rfl, reconcilePrimary_empty_or_mem _ _⟩
  · decide

/-- C8: after every successful, uncancelled snapshot fetch, the
selected-markets projection maps the post-reconciliation selection to
its matching snapshot rows in selection order: the projected ids are
exactly the reconciled selection, and every projected row is a row of
the new snapshot. -/
theorem snapshot_recomputes_selected_markets_projection :
    ∀ (st : DashState) (data : List CoinMarket) (now : ℕ),
      (runMarketCycle st (.ok data) .never now).selectedCoinMarkets =
          selectedMarketsProjection (reconcileSelected st.filters data) data ∧
      ((runMarketCycle st (.ok data) .never now).selectedCoinMarkets).map
          (fun c => c.id) =
        (runMarketCycle st (.ok data) .never now).filters.selectedCoins ∧
      ∀ m ∈ (runMarketCycle st (.ok data) .never now).selectedCoinMarkets,
        m.id ∈ (runMarketCycle st (.ok data) .never now).filters.selectedCoins ∧
        m ∈ data := by
  intro st data now
  rw [runMarketCycle_ok]
  refine ⟨rfl, ?_, ?_⟩
  · show (selectedMarketsProjection (reconcileSelected st.filters data) data).map _ =
      reconcileSelected st.filters data
    exact selectedMarketsProjection_map_id data _ (reconcileSelected_mem_any st.filters data)
  · intro m hm
    refine ⟨?_, selectedMarketsProjection_mem_data _ _ m hm⟩
    have h1 := List.mem_map_of_mem (fun c => c.id) hm
    rwa [selectedMarketsProjection_map_id data _
      (reconcileSelected_mem_any st.filters data)] at h1

/-- C3 counterexample: a `loadMarketOverview` cycle whose signal is
already aborted before the cycle starts still performs a state write
after the abort — the unconditional `setLoadingMarkets(true)` of line
77 runs before the first abort check — so the cycle does mutate the
hook state. -/
theorem aborted_before_start_cycle_still_writes_loading :
    (marketTrace sampleState.filters (.ok sampleSnapshot) .beforeStart 0).2 =
      [WriteTag.wLoadingMarkets true] ∧
    runMarketCycle sampleState (.ok sampleSnapshot) .beforeStart 0 ≠ sampleState := by
  decide

/-- C3 (amended): every write that follows the first abort check is
guarded: a cycle whose signal aborts during the awaited fetch performs
no write after the abort (its only write is the pre-abort loading flag,
so its final state differs from the input only in that flag), while a
cycle invoked with an already-aborted signal performs exactly one
post-abort write, the initial `loading := true`, and touches no other
field (no data, filters, error, or timestamp writes). -/
theorem stale_cycle_writes_are_abort_guarded :
    ∀ (st : DashState) (mres : Except JsError (List CoinMarket))
      (cres : Except JsError MarketChartResponse) (flt : DashboardFilters) (now : ℕ),
      (marketTrace flt mres .duringAwait now).2 = [] ∧
      (chartTrace cres .duringAwait now).2 = [] ∧
      runMarketCycle st mres .duringAwait now = { st with loadingMarkets := true } ∧
      runChartCycle st cres .duringAwait now = { st with loadingChart := true } ∧
      (marketTrace flt mres .beforeStart now).2 = [WriteTag.wLoadingMarkets true] ∧
      (chartTrace cres .beforeStart now).2 = [WriteTag.wLoadingChart true] ∧
      runMarketCycle st mres .beforeStart now = { st with loadingMarkets := true } ∧
      runChartCycle st cres .beforeStart now = { st with loadingChart := true } := by
  intro st mres cres flt now
  exact ⟨rfl, rfl, rfl, rfl, rfl, rfl, rfl, rfl⟩

/-- C6 counterexample: with an empty primary id, `refreshData` still
issues the series request — `loadChart` is invoked unconditionally and
calls `getMarketChart("", ...)` — while the filter-change effect skips
it. -/
theorem force_refresh_issues_series_request_with_empty_primary :
    ApiRequest.chartReq "" "usd" 30 ∈ refreshDataRequests DEFAULT_FILTERS ∧
    chartEffectRequests DEFAULT_FILTERS = [] := by
  decide

/-- C6 (amended): only the filter-change chart effect treats an empty
primary id as a skip precondition; `forceRefresh` and an actually
fetching polling attempt issue the series request unconditionally, even
with an empty primary id. -/
theorem empty_primary_skips_only_chart_effect :
    ∀ flt : DashboardFilters, flt.primaryCoin = "" →
      chartEffectRequests flt = [] ∧
      loadChartRequest flt ∈ refreshDataRequests flt ∧
      loadChartRequest flt ∈ pollAttemptRequests flt false false false := by
  intro flt h
  refine ⟨?_, ?_, ?_⟩
  · simp [chartEffectRequests, h]
  · simp [refreshDataRequests]
  · simp [pollAttemptRequests]

/-- C6 witness: the amended statement at the default filters, whose
primary id is empty. -/
theorem empty_primary_skips_only_chart_effect_witness :
    chartEffectRequests DEFAULT_FILTERS = [] ∧
    loadChartRequest DEFAULT_FILTERS ∈ refreshDataRequests DEFAULT_FILTERS ∧
    loadChartRequest DEFAULT_FILTERS ∈ pollAttemptRequests DEFAULT_FILTERS false false false :=
  empty_primary_skips_only_chart_effect DEFAULT_FILTERS rfl

/-- The error `request` throws for HTTP 429 with `Retry-After: 12`. -/
def localRateLimit12 : JsError :=
  .localRateLimit "Rate limit exceeded" (some 12)

/-- A 429 response carrying `Retry-After: 12` and an empty body. -/
def resp429with12 : HttpResponse :=
  { status := 429, retryAfterHeader := some "12", body := "" }

/-- C5: a fetch failing with the provider's 429 carrying
`retryAfterSeconds = 12` is classified by the generic branch, not the
rate-limit branch: `request` throws the locally declared
`RateLimitError` class, the hook's `instanceof` check against the
exported class is false, and the surfaced message is the raw
"Rate limit exceeded", which does not contain "12". -/
theorem rate_limit_429_surfaces_message_without_retry_seconds :
    request resp429with12 ([] : List CoinMarket) = .error localRateLimit12 ∧
    instanceofRateLimitError localRateLimit12 = false ∧
    classifyFetchError "Unexpected error while loading market data." localRateLimit12 =
      "Rate limit exceeded" ∧
    strContains "Rate limit exceeded" "12" = false := by
  refine ⟨?_, rfl, ?_, ?_⟩
  · rfl
  · decide
  · decide

/-- C10: every 429 response makes `request` throw an error named
"RateLimitError" with status 429 and `retryAfter` parsed from the
`Retry-After` header, constructed from the class declared locally
inside `request`; that value is not an `instanceof` the module's
exported `RateLimitError` class. -/
theorem request_429_throws_local_rate_limit_class :
    ∀ (resp : HttpResponse) (payload : List CoinMarket), resp.status = 429 →
      request resp payload =
        .error (.localRateLimit "Rate limit exceeded"
          (resp.retryAfterHeader.bind jsNumberNat)) ∧
      (JsError.localRateLimit "Rate limit exceeded"
        (resp.retryAfterHeader.bind jsNumberNat)).errName = "RateLimitError" ∧
      (JsError.localRateLimit "Rate limit exceeded"
        (resp.retryAfterHeader.bind jsNumberNat)).statusOf = some 429 ∧
      instanceofRateLimitError (.localRateLimit "Rate limit exceeded"
        (resp.retryAfterHeader.bind jsNumberNat)) = false := by
  intro resp payload h
  refine ⟨?_, rfl, rfl, rfl⟩
  unfold request
  rw [if_pos h]

/-- C10 witness: the 429 response with `Retry-After: 12` yields the
local-class error with `retryAfter = 12`. -/
theorem request_429_throws_local_rate_limit_class_witness :
    request resp429with12 ([] : List CoinMarket) =
      .error (.localRateLimit "Rate limit exceeded"
        (resp429with12.retryAfterHeader.bind jsNumberNat)) ∧
    (JsError.localRateLimit "Rate limit exceeded"
      (resp429with12.retryAfterHeader.bind jsNumberNat)).errName = "RateLimitError" ∧
    (JsError.localRateLimit "Rate limit exceeded"
      (resp429with12.retryAfterHeader.bind jsNumberNat)).statusOf = some 429 ∧
    instanceofRateLimitError (.localRateLimit "Rate limit exceeded"
      (resp429with12.retryAfterHeader.bind jsNumberNat)) = false :=
  request_429_throws_local_rate_limit_class resp429with12 [] rfl

/-- C4: the polling failure counter never increments.  Both loaders
resolve on every underlying fetch outcome (each classifies its errors
internally and never rethrows), so `Promise.all` in `attemptFetch` never
rejects, the `catch` that would increment the counter is unreachable,
and every completed attempt — including one whose two fetches both
failed with a rate limit — resets the counter to 0, leaving the next
non-jittered delay at `base_interval * 1` rather than the
`base_interval * 2` the backoff comment promises. -/
theorem polling_failure_counter_never_increments :
    (∀ (fc : ℕ) (mres : Except JsError (List CoinMarket))
        (cres : Except JsError MarketChartResponse),
      attemptFetchNewCount fc mres cres = 0) ∧
    attemptFetchNewCount 0 (.error localRateLimit12) (.error localRateLimit12) = 0 ∧
    scheduleDelayPre 10000
      (attemptFetchNewCount 0 (.error localRateLimit12) (.error localRateLimit12)) false =
      10000 ∧
    scheduleDelayPre 10000 1 false = 20000 := by
  refine ⟨?_, rfl, ?_, ?_⟩
  · intro fc mres cres
    unfold attemptFetchNewCount marketCycleOutcome chartCycleOutcome
    cases mres <;> cases cres <;> rfl
  · show scheduleDelayPre 10000 0 false = 10000
    norm_num [scheduleDelayPre]
  · norm_num [scheduleDelayPre]

/-- C7 counterexample: page hidden, failure count 0, base interval
10000 ms, random draw 0: the visibility floor raises the component to
60000 ms but the jitter then subtracts 10%, so the scheduled delay is
54000 ms — strictly below `6 * base_interval`. -/
theorem hidden_delay_undercuts_six_times_base :
    scheduleDelay 10000 0 true 0 = 54000 ∧
    ¬ 6 * (10000 : ℚ) ≤ scheduleDelay 10000 0 true 0 := by
  norm_num [scheduleDelay, scheduleDelayPre, jsRound]

/-- C7 (amended): when the page is hidden at scheduling time the
non-jittered component of the delay is at least `6 * base_interval`
regardless of the failure count (visibility floor first); the final
delay after symmetric ±10% jitter and the 1000 ms floor is at least
`(9/10) * 6 * base_interval - 1/2` and at least 1000 ms, so it can
undercut `6 * base_interval` by at most 10% plus rounding. -/
theorem hidden_floor_applies_before_jitter :
    ∀ (base : ℚ) (fc : ℕ) (q : ℚ), 0 ≤ base → 0 ≤ q → q < 1 →
      6 * base ≤ scheduleDelayPre base fc true ∧
      (9 / 10) * (6 * base) - 1 / 2 ≤ scheduleDelay base fc true q ∧
      1000 ≤ scheduleDelay base fc true q := by
  intro base fc q hb hq0 hq1
  have hpre : 6 * base ≤ scheduleDelayPre base fc true := by
    unfold scheduleDelayPre
    simp only
    calc 6 * base = base * 6 := by ring
      _ ≤ max (base * min ((2 : ℚ) ^ fc) 8) (base * 6) := le_max_right _ _
  have hnext0 : 0 ≤ scheduleDelayPre base fc true :=
    le_trans (by positivity) hpre
  refine ⟨hpre, ?_, ?_⟩
  · set next := scheduleDelayPre base fc true with hnextdef
    have hjit : next * (q * (2 / 10) - 1 / 10) + 1 / 2 - 1 ≤
        ((jsRound (next * (q * (2 / 10) - 1 / 10)) : ℤ) : ℚ) := by
      unfold jsRound
      have h1 := Int.sub_one_lt_floor (next * (q * (2 / 10) - 1 / 10) + 1 / 2)
      linarith [h1]
    have harg : -(next / 10) ≤ next * (q * (2 / 10) - 1 / 10) := by nlinarith
    have hmain : (9 / 10) * (6 * base) - 1 / 2 ≤
        next + ((jsRound (next * (q * (2 / 10) - 1 / 10)) : ℤ) : ℚ) := by
      nlinarith [hpre, hnext0, hjit, harg]
    calc (9 / 10) * (6 * base) - 1 / 2 ≤
        next + ((jsRound (next * (q * (2 / 10) - 1 / 10)) : ℤ) : ℚ) := hmain
      _ ≤ scheduleDelay base fc true q := by
          unfold scheduleDelay
          exact le_max_right _ _
  · unfold scheduleDelay
    exact le_max_left _ _

/-- C7 witness: the amended bounds at base 10000 ms, failure count 3,
random draw 1/2. -/
theorem hidden_floor_applies_before_jitter_witness :
    6 * (10000 : ℚ) ≤ scheduleDelayPre 10000 3 true ∧
    (9 / 10) * (6 * (10000 : ℚ)) - 1 / 2 ≤ scheduleDelay 10000 3 true (1 / 2) ∧
    1000 ≤ scheduleDelay 10000 3 true (1 / 2) :=
  hidden_floor_applies_before_jitter 10000 3 (1 / 2) (by norm_num) (by norm_num)
    (by norm_num)

/-- C9: a non-positive (or unset) auto-refresh interval disables the
polling loop entirely: the effect returns before creating any timer or
running any attempt, so the event trace is empty for every script. -/
theorem polling_disabled_for_nonpositive_interval :
    (∀ (ms : ℚ) (ticks : List PollTick), ms ≤ 0 → pollingEffect ms ticks = []) ∧
    (∀ ticks : List PollTick, pollingEffect (autoRefreshFromEnv none) ticks = []) := by
  constructor
  · intro ms ticks h
    unfold pollingEffect
    rw [if_pos (Or.inr h)]
  · intro ticks
    unfold pollingEffect autoRefreshFromEnv
    simp

/-- C9 witness: interval 0 with a one-firing script produces no events. -/
theorem polling_disabled_for_nonpositive_interval_witness :
    pollingEffect 0
      [{ busy := false, hidden := false, mFetch := .ok [],
         cFetch := .ok { prices := [], market_caps := [], total_volumes := [] }, q := 0 }] =
      [] :=
  polling_disabled_for_nonpositive_interval.1 0 _ le_rfl

end CryptoDash
